import Mathlib

/-!
Verification of the anet discovery cache and its synchronization engine.

The definitions below are a shallow embedding of the TypeScript sources:

* `src/core/discovery/indexer.ts` — the SQLite-backed Record Store
  (`AgentIndexer`): `indexAgent`, `getAgent`, `searchAgents`,
  `getTopAgents`, `getAgentCount`, `isCacheStale`, `setSyncState`,
  `getSyncState`.
* the Graph sync module (`syncFromGraph`, `lookupAgent`,
  `extractCapabilities` for Graph payloads).
* the sync orchestrator module (`syncFromAPI`, `fetchAgents`,
  `smartSync`, `lookupAgentById`, `refreshCache`,
  `extractCapabilities` for REST payloads, `syncFromChain`).

JavaScript value semantics that matter here (truthiness of strings and
numbers, `||` defaulting, optional chaining, `INSERT OR REPLACE`
semantics of SQLite, `LIKE` matching, `JSON.stringify` of string
arrays, first-occurrence deduplication of `new Set`) are modelled
explicitly.  Machine integers in the sources are ordinary JS numbers
used well inside the safe range, so they are modelled as `Nat`/`Int`.
-/

namespace Anet

/-- JS truthiness of an optional string value: `undefined`, `null` and
the empty string are falsy, every other string is truthy. -/
def strTruthy : Option String → Bool
  | none => false
  | some s => !(s == "")

/-- JS `a || b` for an optional string `a` and a string default `b`. -/
def jsOr (a : Option String) (b : String) : String :=
  if strTruthy a then a.getD "" else b

/-- JS `a || null` for an optional string `a`: the empty string is
collapsed to `null`. -/
def jsOrNull (a : Option String) : Option String :=
  if strTruthy a then a else none

/-- JS truthiness of an optional number: `undefined` and `0` are falsy. -/
def natTruthy : Option Nat → Bool
  | none => false
  | some n => !(n == 0)

/-- Hexadecimal digit character, used by the JSON control-character escape. -/
def hexDigit (n : Nat) : Char :=
  if n < 10 then Char.ofNat (48 + n) else Char.ofNat (87 + n)

/-- Escape of one character exactly as `JSON.stringify` escapes it inside
a string literal. -/
def jsonEscapeChar (c : Char) : List Char :=
  if c = '"' then ['\\', '"']
  else if c = '\\' then ['\\', '\\']
  else if c = '\n' then ['\\', 'n']
  else if c = '\r' then ['\\', 'r']
  else if c = '\t' then ['\\', 't']
  else if c = '\x08' then ['\\', 'b']
  else if c = '\x0c' then ['\\', 'f']
  else if c.toNat < 32 then
    ['\\', 'u', '0', '0', hexDigit (c.toNat / 16), hexDigit (c.toNat % 16)]
  else [c]

/-- JSON string-literal escaping of a whole string. -/
def jsonEscape (s : String) : String :=
  String.mk (s.data.map jsonEscapeChar).flatten

/-- The result of `JSON.stringify` on an array of strings; this is the
serialized form stored in the `capabilities` TEXT column. -/
def jsonStringifyStrings (l : List String) : String :=
  "[" ++ String.intercalate "," (l.map (fun s => "\"" ++ jsonEscape s ++ "\"")) ++ "]"

/-- SQLite `LIKE` compares ASCII letters case-insensitively. -/
def likeCharEq (p c : Char) : Bool := p.toLower == c.toLower

/-- SQLite `LIKE` pattern matching over character lists: `%` matches any
run of characters, `_` matches one character, anything else matches
itself up to ASCII case. -/
def likeMatch : List Char → List Char → Bool
  | [], [] => true
  | [], _ :: _ => false
  | '%' :: ps, s =>
    likeMatch ps s ||
      (match s with
        | [] => false
        | _ :: s2 => likeMatch ('%' :: ps) s2)
  | '_' :: _, [] => false
  | '_' :: ps, _ :: s => likeMatch ps s
  | _ :: _, [] => false
  | p :: ps, c :: s => likeCharEq p c && likeMatch ps s
termination_by ps s => (ps.length, s.length)

/-- The `capabilities LIKE ?` test with binding `%cap%`, as issued by
`searchAgents`. -/
def likeContains (cap hay : String) : Bool :=
  likeMatch ('%' :: (cap.data ++ ['%'])) hay.data

/-- Service endpoints object passed inside the metadata argument of
`indexAgent`. -/
structure Endpoints where
  http : Option String := none
  mcp : Option String := none
  a2a : Option String := none
  xmtp : Option String := none
deriving Repr, DecidableEq

/-- The fields of the (duck-typed) metadata argument of
`AgentIndexer.indexAgent` that the indexer or its callers touch.
`walletAddress` is supplied by every sync path but, as proved below,
never read by `indexAgent`. -/
structure AgentMetadata where
  name : Option String := none
  description : Option String := none
  capabilities : Option (List String) := none
  agentURI : Option String := none
  paymentAddress : Option String := none
  walletAddress : Option String := none
  endpoints : Option Endpoints := none
deriving Repr, DecidableEq

/-- Optional chaining `metadata.endpoints?.xmtp`. -/
def endpointsXmtp : Option Endpoints → Option String
  | none => none
  | some e => e.xmtp

/-- Optional chaining `metadata.endpoints?.http`. -/
def endpointsHttp : Option Endpoints → Option String
  | none => none
  | some e => e.http

/-- One row of the `agents` table.  `capabilities` holds the serialized
JSON text exactly as stored in the TEXT column; `feedback_count` and
`last_updated` are the SQLite column defaults because `indexAgent` does
not list those columns in its INSERT. -/
structure AgentRecord where
  agent_id : Nat
  wallet_address : String
  agent_uri : String
  name : Option String
  description : Option String
  capabilities : String
  xmtp_address : Option String
  http_endpoint : Option String
  payment_address : Option String
  reputation : Int
  feedback_count : Nat
  last_updated : Option Nat
  indexed_at : Nat
deriving Repr, DecidableEq

/-- The row produced by one `indexAgent(agentId, metadata, reputation)`
call at time `now` (`Date.now()`).  `INSERT OR REPLACE` fills columns
absent from the column list with their declared defaults
(`feedback_count = 0`, `last_updated = NULL`). -/
def recordOf (agentId : Nat) (m : AgentMetadata) (reputation : Int) (now : Nat) : AgentRecord :=
  { agent_id := agentId
    wallet_address := jsOr m.paymentAddress ""
    agent_uri := jsOr m.agentURI ""
    name := jsOrNull m.name
    description := jsOrNull m.description
    capabilities := jsonStringifyStrings (m.capabilities.getD [])
    xmtp_address := jsOrNull (endpointsXmtp m.endpoints)
    http_endpoint := jsOrNull (endpointsHttp m.endpoints)
    payment_address := jsOrNull m.paymentAddress
    reputation := reputation
    feedback_count := 0
    last_updated := none
    indexed_at := now }

/-- The `agents` table, as the list of its rows (row order is never
observable through the modelled queries). -/
abbrev AgentTable := List AgentRecord

/-- SQLite `INSERT OR REPLACE` keyed on the `agent_id` primary key:
any conflicting row is deleted and the fresh row inserted. -/
def indexAgent (tbl : AgentTable) (agentId : Nat) (m : AgentMetadata)
    (reputation : Int) (now : Nat) : AgentTable :=
  tbl.filter (fun r => !(r.agent_id == agentId)) ++ [recordOf agentId m reputation now]

/-- Lookup `SELECT * FROM agents WHERE agent_id = ?` of `getAgent`. -/
def getAgent (tbl : AgentTable) (agentId : Nat) : Option AgentRecord :=
  tbl.find? (fun r => r.agent_id == agentId)

/-- Count query `SELECT COUNT(*) FROM agents` of `getAgentCount`. -/
def getAgentCount (tbl : AgentTable) : Nat := tbl.length

/-- Parameter object of `searchAgents`. -/
structure SearchParams where
  capability : Option String := none
  minReputation : Option Int := none
  limit : Option Nat := none

/-- The WHERE clause assembled by `searchAgents`: the capability LIKE
filter is appended only when `params.capability` is truthy, the
reputation filter only when `params.minReputation` is not undefined. -/
def rowMatches (p : SearchParams) (r : AgentRecord) : Bool :=
  (if strTruthy p.capability then likeContains (p.capability.getD "") r.capabilities else true) &&
    (match p.minReputation with
      | none => true
      | some m => decide (m ≤ r.reputation))

/-- Descending reputation order used by `ORDER BY reputation DESC`. -/
def repGE (a b : AgentRecord) : Prop := b.reputation ≤ a.reputation

instance : DecidableRel repGE :=
  fun a b => inferInstanceAs (Decidable (b.reputation ≤ a.reputation))

instance : IsTotal AgentRecord repGE :=
  ⟨fun a b => le_total b.reputation a.reputation⟩

instance : IsTrans AgentRecord repGE :=
  ⟨fun _ _ _ h1 h2 => le_trans h2 h1⟩

/-- The query of `searchAgents`: filter, order by reputation descending,
and apply `LIMIT` only when `params.limit` is truthy (so a limit of `0`
adds no LIMIT clause at all). -/
def searchAgents (tbl : AgentTable) (p : SearchParams) : List AgentRecord :=
  let rows := List.insertionSort repGE (tbl.filter (rowMatches p))
  if natTruthy p.limit then rows.take (p.limit.getD 0) else rows

/-- The method `getTopAgents(limit)` delegates to
`searchAgents({ limit })`. -/
def getTopAgents (tbl : AgentTable) (limit : Nat) : List AgentRecord :=
  searchAgents tbl { capability := none, minReputation := none, limit := some limit }

/-- JS `toLowerCase`, character by character (ASCII range, which covers
every string the sources produce). -/
def strLower (s : String) : String := String.mk (s.data.map Char.toLower)

/-- First-occurrence deduplication, as performed by `[...new Set(caps)]`
in JavaScript: `acc` accumulates the kept elements in reverse. -/
def dedupAux : List String → List String → List String
  | [], acc => acc.reverse
  | x :: xs, acc => if x ∈ acc then dedupAux xs acc else dedupAux xs (x :: acc)

/-- Spread of `new Set` back into an array. -/
def jsSetDedup (l : List String) : List String := dedupAux l []

/-- The `registrationFile` sub-object of a Graph API agent payload,
restricted to the fields the sync and extractor code reads.  Absent or
null JSON fields are `none` or `false`. -/
structure GraphRegistrationFile where
  name : Option String := none
  description : Option String := none
  image : Option String := none
  x402Support : Bool := false
  supportedTrusts : Option (List String) := none
  mcpEndpoint : Option String := none
  a2aEndpoint : Option String := none
  webEndpoint : Option String := none
  oasfEndpoint : Option String := none
  emailEndpoint : Option String := none
  hasOASF : Bool := false
  mcpTools : Option (List String) := none
  a2aSkills : Option (List String) := none
  oasfSkills : Option (List String) := none
deriving Repr, DecidableEq

/-- One agent entity of a Graph API query response.  The numeric-string
fields `agentId` and `totalFeedback` are modelled already parsed
(`Number(...)` and `parseInt(...) || 0` in the source). -/
structure GraphAgent where
  agentId : Nat := 0
  owner : String := ""
  agentWallet : Option String := none
  agentURI : Option String := none
  totalFeedback : Option Nat := none
  registrationFile : Option GraphRegistrationFile := none
deriving Repr, DecidableEq

/-- Capability extraction for Graph payloads (`graph.ts`): trust
mechanisms are lowercased, fixed tags are added per flag or endpoint,
tool and skill names are namespaced verbatim, and the result is
deduplicated by a `Set`.  The `agent` argument is accepted as in the
source but never read. -/
def extractCapabilitiesGraph (agent : GraphAgent) (reg : GraphRegistrationFile) : List String :=
  let caps : List String :=
    (match reg.supportedTrusts with
      | none => []
      | some ts => ts.map strLower) ++
    (if reg.x402Support then ["x402"] else []) ++
    (if strTruthy reg.mcpEndpoint then ["mcp"] else []) ++
    (if strTruthy reg.a2aEndpoint then ["a2a"] else []) ++
    (if strTruthy reg.webEndpoint then ["web"] else []) ++
    (if reg.hasOASF then ["oasf"] else []) ++
    (if strTruthy reg.emailEndpoint then ["email"] else []) ++
    (match reg.mcpTools with
      | none => []
      | some tools => tools.map (fun tool => "mcp:" ++ tool)) ++
    (match reg.a2aSkills with
      | none => []
      | some skills => skills.map (fun skill => "a2a:" ++ skill)) ++
    (match reg.oasfSkills with
      | none => []
      | some skills => skills.map (fun skill => "oasf:" ++ skill))
  jsSetDedup caps

/-- One service entry of the 8004scan REST payload. -/
structure ServiceEntry where
  endpoint : Option String := none
deriving Repr, DecidableEq

/-- The `endpoints` and `services` sub-objects of a REST agent payload. -/
structure Services where
  web : Option ServiceEntry := none
  mcp : Option ServiceEntry := none
  a2a : Option ServiceEntry := none
deriving Repr, DecidableEq

/-- One agent item of an 8004scan REST page, restricted to the fields
the sync and extractor code reads. -/
structure ApiAgent where
  token_id : Nat := 0
  name : Option String := none
  description : Option String := none
  agent_wallet : Option String := none
  owner_address : String := ""
  endpoints : Option Services := none
  services : Option Services := none
  x402_supported : Bool := false
  supported_protocols : Option (List String) := none
  tags : Option (List String) := none
  categories : Option (List String) := none
  total_score : Option Int := none
deriving Repr, DecidableEq

/-- Capability extraction for REST payloads (`sync.ts`): protocols are
lowercased, fixed tags added per flag or service, and `tags` and
`categories` are spread in verbatim, then deduplicated by a `Set`. -/
def extractCapabilitiesApi (agent : ApiAgent) : List String :=
  let caps : List String :=
    (match agent.supported_protocols with
      | none => []
      | some ps => ps.map strLower) ++
    (if agent.x402_supported then ["x402"] else []) ++
    (if (match agent.services with
          | none => false
          | some s => s.mcp.isSome) then ["mcp-server"] else []) ++
    (if (match agent.services with
          | none => false
          | some s => s.a2a.isSome) then ["a2a"] else []) ++
    (agent.tags.getD []) ++
    (agent.categories.getD [])
  jsSetDedup caps

/-- Optional chaining `x?.web?.endpoint` over `endpoints`/`services`. -/
def svcWeb : Option Services → Option String
  | none => none
  | some s => match s.web with
    | none => none
    | some e => e.endpoint

/-- Optional chaining `x?.mcp?.endpoint`. -/
def svcMcp : Option Services → Option String
  | none => none
  | some s => match s.mcp with
    | none => none
    | some e => e.endpoint

/-- Optional chaining `x?.a2a?.endpoint`. -/
def svcA2a : Option Services → Option String
  | none => none
  | some s => match s.a2a with
    | none => none
    | some e => e.endpoint

/-- JS `a || b || null` on two optional strings. -/
def jsOr2Null (a b : Option String) : Option String :=
  if strTruthy a then a else if strTruthy b then b else none

/-- JS `a || 0` on an optional number. -/
def numOrZero (a : Option Int) : Int := a.getD 0

/-- Combined persistent store: the `agents` table and the `sync_state`
key-value table live in the same database file. -/
structure IndexerState where
  agents : AgentTable := []
  sync : List (String × String) := []
deriving Repr, DecidableEq

/-- State-passing form of `indexAgent`: only the `agents` table changes. -/
def stIndexAgent (st : IndexerState) (agentId : Nat) (m : AgentMetadata)
    (reputation : Int) (now : Nat) : IndexerState :=
  { st with agents := indexAgent st.agents agentId m reputation now }

/-- The `INSERT OR REPLACE INTO sync_state` of `setSyncState`, keyed on
the `key` primary key. -/
def setSyncState (st : IndexerState) (k v : String) : IndexerState :=
  { st with sync := st.sync.filter (fun kv => !(kv.1 == k)) ++ [(k, v)] }

/-- The lookup `SELECT value FROM sync_state WHERE key = ?` of
`getSyncState`. -/
def getSyncState (st : IndexerState) (k : String) : Option String :=
  (st.sync.find? (fun kv => kv.1 == k)).map (fun kv => kv.2)

/-- The network tag of the Graph sync module. -/
inductive GraphNetwork
  | base
  | mainnet
deriving Repr, DecidableEq

/-- String form of a `GraphNetwork`, used in sync-state keys. -/
def graphNetworkName : GraphNetwork → String
  | .base => "base"
  | .mainnet => "mainnet"

/-- The network tag of the orchestrator module. -/
inductive SyncNetwork
  | mainnet
  | testnet
deriving Repr, DecidableEq

/-- String form of a `SyncNetwork`, used in sync-state keys. -/
def syncNetworkName : SyncNetwork → String
  | .mainnet => "mainnet"
  | .testnet => "testnet"

/-- The metadata object built by `syncFromGraph` for one Graph agent and
passed to `indexAgent`.  Extra properties of the source object literal
(`x402Support`, `protocols`, `image`, `network`) are never read by
`indexAgent` and are omitted. -/
def graphAgentMetadata (agent : GraphAgent) (reg : GraphRegistrationFile) : AgentMetadata :=
  { name := jsOrNull reg.name
    description := jsOrNull reg.description
    capabilities := some (extractCapabilitiesGraph agent reg)
    agentURI := some (jsOr agent.agentURI "")
    paymentAddress := some (jsOr agent.agentWallet agent.owner)
    walletAddress := some agent.owner
    endpoints := some
      { http := jsOrNull reg.webEndpoint
        mcp := jsOrNull reg.mcpEndpoint
        a2a := jsOrNull reg.a2aEndpoint
        xmtp := jsOrNull agent.agentWallet } }

/-- The quality gate of `syncFromGraph`: at least one service endpoint. -/
def hasAnyEndpoint (reg : GraphRegistrationFile) : Bool :=
  strTruthy reg.mcpEndpoint || strTruthy reg.a2aEndpoint || strTruthy reg.webEndpoint ||
    strTruthy reg.oasfEndpoint || strTruthy reg.emailEndpoint

/-- The body of the per-agent loop of `syncFromGraph`: skip an agent
lacking every endpoint unless `--all`, otherwise upsert it with its
feedback total as reputation.  The accumulator carries
(state, indexed, skippedNoEndpoint). -/
def graphAgentStep (all : Bool) (now : Nat) (acc : IndexerState × Nat × Nat)
    (agent : GraphAgent) : IndexerState × Nat × Nat :=
  let reg := agent.registrationFile.getD {}
  if !all && !(hasAnyEndpoint reg) then (acc.1, acc.2.1, acc.2.2 + 1)
  else
    (stIndexAgent acc.1 agent.agentId (graphAgentMetadata agent reg)
        (Int.ofNat (agent.totalFeedback.getD 0)) now,
      acc.2.1 + 1, acc.2.2)

/-- The page loop of `syncFromGraph`.  The Graph server is modelled as
the finite sequence `pages` of successful query responses (after the
sequence is exhausted the server would answer with an empty `agents`
array, which is exactly the base case); the loop stops early on an
empty page or on a page shorter than the fixed page size 1000. -/
def syncFromGraphGo (all : Bool) (now : Nat) :
    List (List GraphAgent) → IndexerState × Nat × Nat → IndexerState × Nat × Nat
  | [], acc => acc
  | page :: rest, acc =>
    if page.length = 0 then acc
    else
      let acc2 := page.foldl (graphAgentStep all now) acc
      if page.length < 1000 then acc2
      else syncFromGraphGo all now rest acc2

/-- The whole of `syncFromGraph` on the success path: the stats query
answered `statsTotal`, the page queries answered `pages`; on completion
the five per-network sync-state keys are written and the number of
indexed agents returned. -/
def syncFromGraph (statsTotal : Nat) (pages : List (List GraphAgent)) (all : Bool)
    (network : GraphNetwork) (now : Nat) (minFeedbackOpt : Option Nat)
    (st : IndexerState) : Nat × IndexerState :=
  let minFeedback := if all then 0 else minFeedbackOpt.getD 3
  let acc := syncFromGraphGo all now pages (st, 0, 0)
  let indexed := acc.2.1
  let n := graphNetworkName network
  let st2 := setSyncState acc.1 ("lastSyncTime_" ++ n) (toString now)
  let st3 := setSyncState st2 ("total_" ++ n) (toString statsTotal)
  let st4 := setSyncState st3 ("indexed_" ++ n) (toString indexed)
  let st5 := setSyncState st4 ("source_" ++ n) "thegraph"
  let st6 := setSyncState st5 ("minFeedback_" ++ n) (toString minFeedback)
  (indexed, st6)

/-- One page of the 8004scan REST response body. -/
structure Page where
  items : List ApiAgent := []
  total : Nat := 0
deriving Repr, DecidableEq

/-- The metadata object built by `syncFromAPI` for one REST agent.
Extra properties of the source object literal (`x402Support`,
`protocols`, `verified`, `image`, `chainId`, `network`) are never read
by `indexAgent` and are omitted. -/
def apiAgentMetadata (agent : ApiAgent) : AgentMetadata :=
  { name := jsOrNull agent.name
    description := jsOrNull agent.description
    capabilities := some (extractCapabilitiesApi agent)
    agentURI := some ""
    paymentAddress := some (jsOr agent.agent_wallet agent.owner_address)
    walletAddress := some agent.owner_address
    endpoints := some
      { http := jsOr2Null (svcWeb agent.endpoints) (svcWeb agent.services)
        mcp := jsOr2Null (svcMcp agent.endpoints) (svcMcp agent.services)
        a2a := jsOr2Null (svcA2a agent.endpoints) (svcA2a agent.services)
        xmtp := jsOrNull agent.agent_wallet } }

/-- The body of the per-item loop of `syncFromAPI`: upsert the agent
with `total_score || 0` as reputation and count it. -/
def apiIndexStep (now : Nat) (acc : Nat × IndexerState) (agent : ApiAgent) : Nat × IndexerState :=
  (acc.1 + 1,
    stIndexAgent acc.2 agent.token_id (apiAgentMetadata agent) (numOrZero agent.total_score) now)

/-- The offsets visited by the `while (offset < total)` pagination loop
of `syncFromAPI` with its fixed page size 100. -/
def syncOffsets (total : Nat) : List Nat :=
  (List.range ((total + 99) / 100)).map (fun i => i * 100)

/-- One iteration of the pagination loop: the first page is reused,
later pages come from the fetch oracle. -/
def apiPageStep (fetchPage : Nat → Page) (firstPage : Page) (now : Nat)
    (acc : Nat × IndexerState) (offset : Nat) : Nat × IndexerState :=
  let page := if offset == 0 then firstPage else fetchPage offset
  page.items.foldl (apiIndexStep now) acc

/-- The whole of `syncFromAPI` on the success path: the fetch oracle
maps an offset to the page the REST source answers.  A zero total
returns early; otherwise the pages are ingested and exactly two
sync-state keys written. -/
def syncFromAPI (fetchPage : Nat → Page) (network : SyncNetwork) (now : Nat)
    (st : IndexerState) : Nat × IndexerState :=
  let firstPage := fetchPage 0
  let total := firstPage.total
  if total == 0 then (0, st)
  else
    let r := (syncOffsets total).foldl (apiPageStep fetchPage firstPage now) (0, st)
    let n := syncNetworkName network
    let st2 := setSyncState r.2 ("lastSyncTime_" ++ n) (toString now)
    let st3 := setSyncState st2 ("total_" ++ n) (toString total)
    (r.1, st3)

/-- HTTP 2xx test, the `response.ok` of fetch. -/
def httpOk (status : Nat) : Bool := 200 ≤ status && status < 300

/-- One HTTP response of the REST source: a status and, for successful
responses, the parsed JSON page. -/
structure HttpResp where
  status : Nat := 200
  body : Page := {}
deriving Repr, DecidableEq

/-- The error taxonomy of `fetchAgents`. -/
inductive FetchErr
  | rateLimited
  | upstream (status : Nat)
deriving Repr, DecidableEq

/-- Observable outcome of one `fetchAgents` call: the result, the list
of backoff delays slept (in ms, in order), and how many HTTP requests
were issued. -/
structure FetchOutcome where
  result : Except FetchErr Page
  delays : List Nat
  attemptsMade : Nat
deriving Repr

/-- The retry loop of `fetchAgents`: `remaining` counts the loop
iterations left out of 5, `attempt` indexes the request sequence
`resp`, `delay` is the current backoff.  A 429 sleeps and doubles the
delay; any other non-2xx status fails at once; exhausting the loop
fails with the rate-limited error. -/
def fetchAgentsGo (resp : Nat → HttpResp) :
    Nat → Nat → Nat → List Nat → FetchOutcome
  | 0, attempt, _, delays => ⟨Except.error FetchErr.rateLimited, delays, attempt⟩
  | remaining + 1, attempt, delay, delays =>
    let r := resp attempt
    if r.status == 429 then
      fetchAgentsGo resp remaining (attempt + 1) (delay * 2) (delays ++ [delay])
    else if httpOk r.status then ⟨Except.ok r.body, delays, attempt + 1⟩
    else ⟨Except.error (FetchErr.upstream r.status), delays, attempt + 1⟩

/-- Entry point of `fetchAgents`: at most 5 attempts, initial backoff
1000 ms. -/
def fetchAgents (resp : Nat → HttpResp) : FetchOutcome :=
  fetchAgentsGo resp 5 0 1000 []

/-- The doubling backoff schedule: `n` delays starting at `d` ms. -/
def powDelays (d n : Nat) : List Nat :=
  (List.range n).map (fun i => d * 2 ^ i)

/-- The three data sources of the discovery cascade. -/
inductive SyncSource
  | graph
  | rest
  | chain
deriving Repr, DecidableEq

/-- Control flow of `smartSync`, with the two inner syncs abstracted by
their outcomes: when the Graph API key (a string, truthy iff nonempty)
is configured the Graph sync runs first and only its thrown exception
falls through to the REST sync; the chain scanner is never called.
The returned list records which sources were contacted, in order. -/
def smartSync (graphApiKey : String) (graphResult : Except String Nat)
    (apiResult : Except String Nat) : Except String Nat × List SyncSource :=
  if graphApiKey == "" then (apiResult, [SyncSource.rest])
  else
    match graphResult with
    | Except.ok n => (Except.ok n, [SyncSource.graph])
    | Except.error _ => (apiResult, [SyncSource.graph, SyncSource.rest])

/-- Numeric value of a decimal digit character. -/
def charDigit (c : Char) : Nat := c.toNat - 48

/-- The `parseInt` of the staleness check, on the strings the sync
paths actually record (`Date.now().toString()`, all decimal digits):
an all-digit string parses to its value, anything else is NaN. -/
def parseTimestamp (s : String) : Option Nat :=
  if !(s.data.isEmpty) && s.data.all (fun c => c.isDigit) then
    some (s.data.foldl (fun n c => n * 10 + charDigit c) 0)
  else none

/-- The staleness test of `AgentIndexer.isCacheStale`: stale when no
timestamp is recorded or when `now - parseInt(v) > ttl`.  A recorded
value that `parseInt` cannot read at all yields NaN, and every NaN
comparison is false in JS, hence the `false` arm. -/
def isCacheStale (st : IndexerState) (network : String) (ttlMs now : Nat) : Bool :=
  match getSyncState st ("lastSyncTime_" ++ network) with
  | none => true
  | some v =>
    match parseTimestamp v with
    | none => false
    | some ts => decide (now - ts > ttlMs)

/-- The default TTL of both `isCacheStale` and `refreshCache`: one hour. -/
def defaultTtlMs : Nat := 3600000

/-- Observable outcome of `refreshCache`: the returned object and
whether the synchronous `smartSync` call was performed at all. -/
structure RefreshOutcome where
  synced : Bool
  count : Nat
  syncPerformed : Bool
deriving Repr, DecidableEq

/-- Control flow of `refreshCache`, with the inner `smartSync` count
abstracted: a fresh cache short-circuits to the current record count,
a stale one performs the sync. -/
def refreshCache (st : IndexerState) (network : String) (ttlMs now : Nat)
    (syncCount : Nat) : RefreshOutcome :=
  if !(isCacheStale st network ttlMs now) then
    ⟨false, getAgentCount st.agents, false⟩
  else
    ⟨true, syncCount, true⟩

/-- The chain id embedded in the composite Graph entity identifier. -/
def chainIdOf : GraphNetwork → String
  | .base => "8453"
  | .mainnet => "1"

/-- The normalized object returned by `lookupAgent` on a hit. -/
structure LookupRec where
  agent_id : Nat
  name : Option String
  description : Option String
  capabilities : List String
  wallet_address : String
  xmtp_address : Option String
  http_endpoint : Option String
  mcp_endpoint : Option String
  a2a_endpoint : Option String
  payment_address : String
  reputation : Int
  x402Support : Bool
  supportedTrusts : Option (List String)
  image : Option String
deriving Repr, DecidableEq

/-- Normalization of a Graph agent payload performed by `lookupAgent`. -/
def lookupAgentNormalize (agent : GraphAgent) : LookupRec :=
  let reg := agent.registrationFile.getD {}
  { agent_id := agent.agentId
    name := jsOrNull reg.name
    description := jsOrNull reg.description
    capabilities := extractCapabilitiesGraph agent reg
    wallet_address := agent.owner
    xmtp_address := jsOrNull agent.agentWallet
    http_endpoint := jsOrNull reg.webEndpoint
    mcp_endpoint := jsOrNull reg.mcpEndpoint
    a2a_endpoint := jsOrNull reg.a2aEndpoint
    payment_address := jsOr agent.agentWallet agent.owner
    reputation := Int.ofNat (agent.totalFeedback.getD 0)
    x402Support := reg.x402Support
    supportedTrusts := reg.supportedTrusts
    image := reg.image }

/-- Live single-entity lookup of `lookupAgent`: the Graph endpoint is
modelled by the `queryById` oracle from the composite identifier to the
(possibly absent) agent of the response. -/
def lookupAgent (queryById : String → Option GraphAgent) (agentId : Nat)
    (network : GraphNetwork) : Option LookupRec :=
  let chainId := chainIdOf network
  let id := chainId ++ ":" ++ toString agentId
  (queryById id).map lookupAgentNormalize

/-- The single-entity lookup of `lookupAgentById`: cache first, then
(when the Graph API key is configured) the live Graph query; the store
is returned unchanged on every path because the source performs no
write.  Both arms of the network ternary in the source select the
`base` Graph network. -/
def lookupAgentById (st : IndexerState) (graphApiKey : String)
    (queryById : String → Option GraphAgent) (agentId : Nat)
    (network : SyncNetwork) : Option (AgentRecord ⊕ LookupRec) × IndexerState :=
  match getAgent st.agents agentId with
  | some cached => (some (Sum.inl cached), st)
  | none =>
    if graphApiKey == "" then (none, st)
    else ((lookupAgent queryById agentId GraphNetwork.base).map Sum.inr, st)

/-- The window starts visited by the chunk loop of `syncFromChain`
(`CHUNK_SIZE = 9999`, `from += CHUNK_SIZE + 1` while `from <= current`),
assuming `lastSynced <= currentBlock`. -/
def windowStarts (lastSynced currentBlock : Nat) : List Nat :=
  (List.range ((currentBlock - lastSynced) / 10000 + 1)).map (fun i => lastSynced + i * 10000)

/-- The upper bound of the window starting at `f`. -/
def windowTo (currentBlock f : Nat) : Nat := min (f + 9999) currentBlock

/-- The sub-chunk starts of the retry loop inside the catch handler
(`f2 += 2000` while `f2 <= to`). -/
def subStarts (f t : Nat) : List Nat :=
  (List.range ((t - f) / 2000 + 1)).map (fun i => f + i * 2000)

/-- The `queryFilter` block ranges attempted for one window: the full
window, and on its failure additionally every fixed 2000-block
sub-chunk of the window (each tried exactly once, a failing sub-chunk
is skipped silently). -/
def windowAttempts (currentBlock : Nat) (ok : Nat → Nat → Bool) (f : Nat) : List (Nat × Nat) :=
  let t := windowTo currentBlock f
  if ok f t then [(f, t)]
  else (f, t) :: (subStarts f t).map (fun f2 => (f2, min (f2 + 1999) t))

/-- All `queryFilter` block ranges attempted by one `syncFromChain`
pass over `[lastSynced, currentBlock]`, in order; `ok` tells which
queries succeed. -/
def chainScanAttempts (lastSynced currentBlock : Nat) (ok : Nat → Nat → Bool) :
    List (Nat × Nat) :=
  ((windowStarts lastSynced currentBlock).map (windowAttempts currentBlock ok)).flatten

/-- The events collected for one window: the full query result on
success, otherwise the union of the successful 2000-block sub-chunk
results (failing sub-chunks contribute nothing). -/
def windowEvents (currentBlock : Nat) (ok : Nat → Nat → Bool)
    (evs : Nat → Nat → List Nat) (f : Nat) : List Nat :=
  let t := windowTo currentBlock f
  if ok f t then evs f t
  else
    (subStarts f t).foldl
      (fun a f2 =>
        let t2 := min (f2 + 1999) t
        if ok f2 t2 then a ++ evs f2 t2 else a) []

/-- All events collected by one `syncFromChain` pass: a failed window
only loses its own unscannable sub-chunks and never aborts the
subsequent windows. -/
def chainScanEvents (lastSynced currentBlock : Nat) (ok : Nat → Nat → Bool)
    (evs : Nat → Nat → List Nat) : List Nat :=
  ((windowStarts lastSynced currentBlock).map (windowEvents currentBlock ok evs)).flatten

end Anet

namespace Anet

/-- Helper: a find for `agent_id = i` skips every row kept by the filter
that removed the rows with `agent_id = i`. -/
theorem find?_filter_ne_append (l : List AgentRecord) (i : Nat) (xs : List AgentRecord) :
    List.find? (fun r => r.agent_id == i)
      (l.filter (fun r => !(r.agent_id == i)) ++ xs) =
    List.find? (fun r => r.agent_id == i) xs := by
  induction l with
  | nil => rfl
  | cons r l ih =>
    by_cases h : r.agent_id = i
    · simp [List.filter_cons, h, ih]
    · simp [List.filter_cons, h, List.find?, ih]

/-- Helper: the row just written by `indexAgent` is what `getAgent`
returns for that id. -/
theorem getAgent_indexAgent (tbl : AgentTable) (i : Nat) (m : AgentMetadata)
    (rep : Int) (now : Nat) :
    getAgent (indexAgent tbl i m rep now) i = some (recordOf i m rep now) := by
  unfold getAgent indexAgent
  rw [find?_filter_ne_append]
  simp [List.find?, recordOf]

/-- Helper: re-filtering away id `i` after an upsert of id `i` leaves
exactly the originally filtered rows. -/
theorem filter_indexAgent (tbl : AgentTable) (i : Nat) (m : AgentMetadata)
    (rep : Int) (now : Nat) :
    (indexAgent tbl i m rep now).filter (fun r => !(r.agent_id == i)) =
      tbl.filter (fun r => !(r.agent_id == i)) := by
  unfold indexAgent
  rw [List.filter_append, List.filter_filter]
  simp [recordOf, List.filter_cons]

/-- C5: upserting the same `agentId` twice is a full replace — after the
second `indexAgent` the stored row for that id is exactly the row built
from the second metadata (including the defaulted `feedback_count` and
`last_updated` columns), and the total record count does not grow. -/
theorem indexAgent_upsert_replaces (tbl : AgentTable) (i : Nat)
    (m1 m2 : AgentMetadata) (rep1 rep2 : Int) (t1 t2 : Nat) :
    getAgent (indexAgent (indexAgent tbl i m1 rep1 t1) i m2 rep2 t2) i =
        some (recordOf i m2 rep2 t2) ∧
      getAgentCount (indexAgent (indexAgent tbl i m1 rep1 t1) i m2 rep2 t2) =
        getAgentCount (indexAgent tbl i m1 rep1 t1) := by
  refine ⟨getAgent_indexAgent _ _ _ _ _, ?_⟩
  show (indexAgent (indexAgent tbl i m1 rep1 t1) i m2 rep2 t2).length =
    (indexAgent tbl i m1 rep1 t1).length
  unfold indexAgent
  rw [show ((tbl.filter (fun r => !(r.agent_id == i)) ++ [recordOf i m1 rep1 t1]).filter
      (fun r => !(r.agent_id == i))) =
    ((indexAgent tbl i m1 rep1 t1).filter (fun r => !(r.agent_id == i))) from rfl]
  rw [filter_indexAgent]
  simp

/-- C9: the stored `wallet_address` column equals the `paymentAddress`
input (empty string when absent), `payment_address` is derived from the
same input, and the `walletAddress` field supplied by the sync paths is
ignored: changing it does not change the write at all. -/
theorem indexAgent_walletAddress_ignored (tbl : AgentTable) (i : Nat)
    (m : AgentMetadata) (rep : Int) (now : Nat) (w : Option String) :
    indexAgent tbl i { m with walletAddress := w } rep now = indexAgent tbl i m rep now ∧
      (∀ r, getAgent (indexAgent tbl i m rep now) i = some r →
        r.wallet_address = m.paymentAddress.getD "" ∧
          r.payment_address = jsOrNull m.paymentAddress) := by
  constructor
  · unfold indexAgent recordOf
    simp
  · intro r hr
    rw [getAgent_indexAgent] at hr
    cases hr
    constructor
    · show jsOr m.paymentAddress "" = m.paymentAddress.getD ""
      unfold jsOr strTruthy
      cases m.paymentAddress with
      | none => rfl
      | some s =>
        by_cases h : s = "" <;> simp [h]
    · rfl

/-- C9 witness at a concrete input. -/
theorem indexAgent_walletAddress_ignored_witness :
    (getAgent (indexAgent [] 7
        { paymentAddress := some "0xabc", walletAddress := some "0xowner" } 3 100) 7).all
      (fun r => r.wallet_address == "0xabc") = true := by
  have h := indexAgent_walletAddress_ignored [] 7
    { paymentAddress := some "0xabc", walletAddress := some "0xowner" } 3 100 none
  have h2 := h.2 (recordOf 7 { paymentAddress := some "0xabc", walletAddress := some "0xowner" } 3 100)
    (getAgent_indexAgent [] 7 _ 3 100)
  rw [getAgent_indexAgent]
  simp only [Option.all_some]
  rw [h2.1]
  decide

/-- Helper: a find skips an entire prefix on which its predicate was
filtered away. -/
theorem find?_not_filter_append {α : Type} (p : α → Bool) (l xs : List α) :
    List.find? p (l.filter (fun x => !(p x)) ++ xs) = List.find? p xs := by
  induction l with
  | nil => rfl
  | cons a l ih =>
    by_cases h : p a
    · simp [List.filter_cons, h, ih]
    · simp [List.filter_cons, h, List.find?, ih]

/-- Helper: reading back the key just written by `setSyncState`. -/
theorem getSyncState_set_self (st : IndexerState) (k v : String) :
    getSyncState (setSyncState st k v) k = some v := by
  unfold getSyncState setSyncState
  rw [show (fun kv : String × String => !(kv.1 == k)) =
    (fun kv : String × String => !((fun kv : String × String => kv.1 == k) kv)) from rfl]
  rw [find?_not_filter_append]
  simp [List.find?]

/-- Helper: a find skips a head on which its predicate is false. -/
theorem find?_cons_false {α : Type} (p : α → Bool) (a : α) (l : List α) (h : p a = false) :
    List.find? p (a :: l) = List.find? p l := by
  simp [List.find?, h]

/-- Helper: a find returns a head on which its predicate is true. -/
theorem find?_cons_true {α : Type} (p : α → Bool) (a : α) (l : List α) (h : p a = true) :
    List.find? p (a :: l) = some a := by
  simp [List.find?, h]

/-- Helper: writing one sync-state key leaves every other key intact. -/
theorem getSyncState_set_ne (st : IndexerState) (k k2 v : String) (h : k ≠ k2) :
    getSyncState (setSyncState st k2 v) k = getSyncState st k := by
  have hk : (k2 == k) = false := beq_eq_false_iff_ne.mpr (fun hh => h hh.symm)
  unfold getSyncState setSyncState
  have haux : ∀ l : List (String × String),
      List.find? (fun kv => kv.1 == k) (l.filter (fun kv => !(kv.1 == k2)) ++ [(k2, v)]) =
      List.find? (fun kv => kv.1 == k) l := by
    intro l
    induction l with
    | nil =>
      show List.find? (fun kv => kv.1 == k) [(k2, v)] = none
      simp [List.find?, hk]
    | cons a l ih =>
      by_cases h1 : a.1 = k2
      · have h2 : (a.1 == k) = false := by rw [h1]; exact hk
        rw [List.filter_cons, if_neg (by simp [h1])]
        rw [ih, find?_cons_false (fun kv => kv.1 == k) a l h2]
      · rw [List.filter_cons, if_pos (by simp [h1]), List.cons_append]
        by_cases h4 : a.1 = k
        · rw [find?_cons_true (fun kv => kv.1 == k) a
              (List.filter (fun kv => !(kv.1 == k2)) l ++ [(k2, v)]) (by simp [h4]),
            find?_cons_true (fun kv => kv.1 == k) a l (by simp [h4])]
        · rw [find?_cons_false (fun kv => kv.1 == k) a
              (List.filter (fun kv => !(kv.1 == k2)) l ++ [(k2, v)]) (by simp [h4]),
            find?_cons_false (fun kv => kv.1 == k) a l (by simp [h4]), ih]
  rw [haux]

/-- Helper: strings with prefixes of different lengths stay different
after appending the same suffix. -/
theorem append_ne_append_left (p q n : String) (h : p.length ≠ q.length) :
    p ++ n ≠ q ++ n := by
  intro he
  apply h
  have hl := congrArg String.length he
  rw [String.length_append, String.length_append] at hl
  omega

/-- Helper: the per-item loop of `syncFromAPI` never touches the
`sync_state` table. -/
theorem apiItems_sync_eq (items : List ApiAgent) (now : Nat) (acc : Nat × IndexerState) :
    ((items.foldl (apiIndexStep now) acc).2).sync = acc.2.sync := by
  induction items generalizing acc with
  | nil => rfl
  | cons a l ih => rw [List.foldl_cons, ih]; rfl

/-- Helper: the pagination loop of `syncFromAPI` never touches the
`sync_state` table. -/
theorem apiLoop_sync_eq (offs : List Nat) (f : Nat → Page) (fp : Page) (now : Nat)
    (acc : Nat × IndexerState) :
    ((offs.foldl (apiPageStep f fp now) acc).2).sync = acc.2.sync := by
  induction offs generalizing acc with
  | nil => rfl
  | cons o l ih =>
    rw [List.foldl_cons, ih]
    unfold apiPageStep
    exact apiItems_sync_eq _ _ _

/-- C1 (amended): a successful Graph sync records all four values
(timestamp, total-known-count, indexed-count, source identifier) into
SyncState keyed by network, but a successful REST sync records only the
timestamp and the total-known-count — it leaves every other sync-state
key, including the source identifier and the indexed-count, exactly as
it was. -/
theorem syncState_after_successful_sync
    (statsTotal : Nat) (pages : List (List GraphAgent)) (all : Bool)
    (gn : GraphNetwork) (mf : Option Nat) (fetchPage : Nat → Page)
    (sn : SyncNetwork) (now : Nat) (stg sta : IndexerState) :
    (getSyncState (syncFromGraph statsTotal pages all gn now mf stg).2
        ("lastSyncTime_" ++ graphNetworkName gn) = some (toString now) ∧
      getSyncState (syncFromGraph statsTotal pages all gn now mf stg).2
        ("total_" ++ graphNetworkName gn) = some (toString statsTotal) ∧
      getSyncState (syncFromGraph statsTotal pages all gn now mf stg).2
        ("indexed_" ++ graphNetworkName gn) =
          some (toString (syncFromGraph statsTotal pages all gn now mf stg).1) ∧
      getSyncState (syncFromGraph statsTotal pages all gn now mf stg).2
        ("source_" ++ graphNetworkName gn) = some "thegraph") ∧
    ((fetchPage 0).total ≠ 0 →
      (getSyncState (syncFromAPI fetchPage sn now sta).2
          ("lastSyncTime_" ++ syncNetworkName sn) = some (toString now) ∧
        getSyncState (syncFromAPI fetchPage sn now sta).2
          ("total_" ++ syncNetworkName sn) = some (toString (fetchPage 0).total) ∧
        ∀ k, k ≠ "lastSyncTime_" ++ syncNetworkName sn →
          k ≠ "total_" ++ syncNetworkName sn →
          getSyncState (syncFromAPI fetchPage sn now sta).2 k = getSyncState sta k)) := by
  constructor
  · unfold syncFromGraph
    refine ⟨?_, ?_, ?_, ?_⟩
    · rw [getSyncState_set_ne _ _ _ _ (append_ne_append_left _ _ _ (by decide)),
        getSyncState_set_ne _ _ _ _ (append_ne_append_left _ _ _ (by decide)),
        getSyncState_set_ne _ _ _ _ (append_ne_append_left _ _ _ (by decide)),
        getSyncState_set_ne _ _ _ _ (append_ne_append_left _ _ _ (by decide)),
        getSyncState_set_self]
    · rw [getSyncState_set_ne _ _ _ _ (append_ne_append_left _ _ _ (by decide)),
        getSyncState_set_ne _ _ _ _ (append_ne_append_left _ _ _ (by decide)),
        getSyncState_set_ne _ _ _ _ (append_ne_append_left _ _ _ (by decide)),
        getSyncState_set_self]
    · rw [getSyncState_set_ne _ _ _ _ (append_ne_append_left _ _ _ (by decide)),
        getSyncState_set_ne _ _ _ _ (append_ne_append_left _ _ _ (by decide)),
        getSyncState_set_self]
    · rw [getSyncState_set_ne _ _ _ _ (append_ne_append_left _ _ _ (by decide)),
        getSyncState_set_self]
  · intro htot
    have hne : ((fetchPage 0).total == 0) = false := by
      simpa [beq_eq_false_iff_ne] using htot
    unfold syncFromAPI
    rw [if_neg (by simp [hne])]
    refine ⟨?_, ?_, ?_⟩
    · rw [getSyncState_set_ne _ _ _ _ (append_ne_append_left _ _ _ (by decide)),
        getSyncState_set_self]
    · rw [getSyncState_set_self]
    · intro k hk1 hk2
      rw [getSyncState_set_ne _ _ _ _ hk2, getSyncState_set_ne _ _ _ _ hk1]
      unfold getSyncState
      rw [apiLoop_sync_eq]

/-- C1 witness: one concrete successful REST sync, with its recorded
timestamp. -/
theorem syncState_after_successful_sync_witness :
    getSyncState ((syncFromAPI (fun _ => { items := [{}], total := 1 })
        SyncNetwork.mainnet 5 {}).2) ("lastSyncTime_" ++ syncNetworkName SyncNetwork.mainnet) =
      some (toString 5) := by
  have h := (syncState_after_successful_sync 0 [] false GraphNetwork.base none
    (fun _ => { items := [{}], total := 1 }) SyncNetwork.mainnet 5 {} {}).2 (by decide)
  exact h.1

/-- C1 counterexample: after a successful REST sync (one agent indexed)
the SyncState table holds neither the source identifier nor the
indexed-count for the network, refuting the claim that every successful
sync records all four values regardless of source. -/
theorem syncFromAPI_syncState_counterexample :
    getSyncState ((syncFromAPI (fun _ => { items := [{}], total := 1 })
        SyncNetwork.mainnet 5 {}).2) "source_mainnet" = none ∧
    getSyncState ((syncFromAPI (fun _ => { items := [{}], total := 1 })
        SyncNetwork.mainnet 5 {}).2) "indexed_mainnet" = none ∧
    (syncFromAPI (fun _ => { items := [{}], total := 1 })
        SyncNetwork.mainnet 5 {}).1 = 1 := by
  refine ⟨?_, ?_, ?_⟩ <;> rfl

/-- C10: a limit of `0` is falsy, so `searchAgents` applies no LIMIT at
all: the result equals the unlimited query, and `getTopAgents(0)`
returns every record of the store ordered by reputation descending
(a permutation of the whole table, sorted), not an empty list. -/
theorem searchAgents_limit_zero (tbl : AgentTable) (cap : Option String)
    (minRep : Option Int) :
    searchAgents tbl { capability := cap, minReputation := minRep, limit := some 0 } =
        searchAgents tbl { capability := cap, minReputation := minRep, limit := none } ∧
      (getTopAgents tbl 0).Perm tbl ∧
      List.Sorted repGE (getTopAgents tbl 0) := by
  refine ⟨rfl, ?_, ?_⟩
  · unfold getTopAgents searchAgents
    simp only [natTruthy]
    have hfilter : tbl.filter (rowMatches
        { capability := none, minReputation := none, limit := some 0 }) = tbl := by
      simp [rowMatches, strTruthy, List.filter_eq_self]
    simp only [show (!(0 == 0)) = false from rfl, if_neg Bool.false_ne_true, hfilter]
    exact List.perm_insertionSort repGE tbl
  · unfold getTopAgents searchAgents
    simp only [natTruthy]
    simp only [show (!(0 == 0)) = false from rfl, if_neg Bool.false_ne_true]
    exact List.sorted_insertionSort repGE _

/-- Helper: one unfolding step of the retry loop. -/
theorem fetchAgentsGo_step (resp : Nat → HttpResp) (n attempt delay : Nat) (delays : List Nat) :
    fetchAgentsGo resp (n + 1) attempt delay delays =
      if (resp attempt).status == 429 then
        fetchAgentsGo resp n (attempt + 1) (delay * 2) (delays ++ [delay])
      else if httpOk (resp attempt).status then
        ⟨Except.ok (resp attempt).body, delays, attempt + 1⟩
      else ⟨Except.error (FetchErr.upstream (resp attempt).status), delays, attempt + 1⟩ := rfl

/-- Helper: the backoff schedule unrolls one doubling step. -/
theorem powDelays_succ (d n : Nat) : powDelays d (n + 1) = d :: powDelays (d * 2) n := by
  unfold powDelays
  rw [List.range_succ_eq_map, List.map_cons, List.map_map]
  refine congrArg₂ List.cons (by simp) ?_
  refine List.map_congr_left ?_
  intro i _
  show d * 2 ^ (i + 1) = d * 2 * 2 ^ i
  ring

/-- Helper: the loop issues at most `remaining` further requests. -/
theorem fetchAgentsGo_attempts_le (resp : Nat → HttpResp) :
    ∀ rem attempt delay delays,
      (fetchAgentsGo resp rem attempt delay delays).attemptsMade ≤ attempt + rem := by
  intro rem
  induction rem with
  | zero => intro attempt delay delays; simp [fetchAgentsGo]
  | succ n ih =>
    intro attempt delay delays
    rw [fetchAgentsGo_step]
    by_cases h : ((resp attempt).status == 429) = true
    · rw [if_pos h]
      have hle := ih (attempt + 1) (delay * 2) (delays ++ [delay])
      omega
    · rw [if_neg h]
      by_cases h2 : httpOk (resp attempt).status = true
      · rw [if_pos h2]; show attempt + 1 ≤ attempt + (n + 1); omega
      · rw [if_neg h2]; show attempt + 1 ≤ attempt + (n + 1); omega

/-- Helper: on an unbroken run of 429 responses the loop sleeps the
doubling schedule, exhausts its budget and fails rate-limited. -/
theorem fetchAgentsGo_all429 (resp : Nat → HttpResp) :
    ∀ rem attempt delay delays,
      (∀ n, n < rem → (resp (attempt + n)).status = 429) →
      fetchAgentsGo resp rem attempt delay delays =
        ⟨Except.error FetchErr.rateLimited, delays ++ powDelays delay rem, attempt + rem⟩ := by
  intro rem
  induction rem with
  | zero => intro attempt delay delays h; simp [fetchAgentsGo, powDelays]
  | succ n ih =>
    intro attempt delay delays h
    have h0 : (resp attempt).status = 429 := by
      have := h 0 (Nat.succ_pos n)
      simpa using this
    rw [fetchAgentsGo_step, if_pos (by simp [h0])]
    rw [ih (attempt + 1) (delay * 2) (delays ++ [delay]) ?hshift]
    case hshift =>
      intro m hm
      have hidx : attempt + 1 + m = attempt + (m + 1) := by omega
      rw [hidx]
      exact h (m + 1) (by omega)
    have hd : (delays ++ [delay]) ++ powDelays (delay * 2) n = delays ++ powDelays delay (n + 1) := by
      rw [powDelays_succ, List.append_assoc, List.singleton_append]
    have ha : attempt + 1 + n = attempt + (n + 1) := by omega
    rw [hd, ha]

/-- Helper: the loop stops at the first non-429 response, after sleeping
once per preceding 429. -/
theorem fetchAgentsGo_stop (resp : Nat → HttpResp) :
    ∀ rem k attempt delay delays, k < rem →
      (∀ n, n < k → (resp (attempt + n)).status = 429) →
      ((resp (attempt + k)).status == 429) = false →
      fetchAgentsGo resp rem attempt delay delays =
        (if httpOk (resp (attempt + k)).status then
          ⟨Except.ok ((resp (attempt + k)).body), delays ++ powDelays delay k, attempt + k + 1⟩
        else
          ⟨Except.error (FetchErr.upstream ((resp (attempt + k)).status)),
            delays ++ powDelays delay k, attempt + k + 1⟩) := by
  intro rem
  induction rem with
  | zero => intro k attempt delay delays hk; exact absurd hk (Nat.not_lt_zero k)
  | succ n ih =>
    intro k attempt delay delays hk h429 hstop
    cases k with
    | zero =>
      have hstop0 : ((resp attempt).status == 429) = false := by simpa using hstop
      rw [fetchAgentsGo_step, if_neg (by simp [hstop0])]
      by_cases h2 : httpOk ((resp (attempt + 0)).status) = true
      · rw [if_pos h2, if_pos (by simpa using h2)]
        simp [powDelays]
      · rw [if_neg h2, if_neg (by simpa using h2)]
        simp [powDelays]
    | succ m =>
      have h0 : (resp attempt).status = 429 := by
        have := h429 0 (Nat.succ_pos m)
        simpa using this
      have hidx : attempt + 1 + m = attempt + (m + 1) := by omega
      rw [fetchAgentsGo_step, if_pos (by simp [h0])]
      rw [ih m (attempt + 1) (delay * 2) (delays ++ [delay]) (by omega) ?h1 ?h2]
      case h1 =>
        intro q hq
        have hq2 : attempt + 1 + q = attempt + (q + 1) := by omega
        rw [hq2]
        exact h429 (q + 1) (by omega)
      case h2 =>
        rw [hidx]
        exact hstop
      have hd : (delays ++ [delay]) ++ powDelays (delay * 2) m =
          delays ++ powDelays delay (m + 1) := by
        rw [powDelays_succ, List.append_assoc, List.singleton_append]
      rw [hidx, hd]

/-- C2: the rate-limited fetcher makes at most 5 requests; on an
unbroken run of 429 responses it sleeps delays of exactly 1000, 2000,
4000, 8000 and 16000 ms (starting at 1 second and doubling each
attempt) and then fails with the rate-limited error; the first non-2xx,
non-429 response makes it fail immediately (request count `k + 1`, no
further retry) with an error carrying the upstream status; the first
2xx response returns that response body. -/
theorem fetchAgents_backoff (resp : Nat → HttpResp) :
    (fetchAgents resp).attemptsMade ≤ 5 ∧
    ((∀ n, n < 5 → (resp n).status = 429) →
      (fetchAgents resp).result = Except.error FetchErr.rateLimited ∧
      (fetchAgents resp).delays = [1000, 2000, 4000, 8000, 16000] ∧
      (fetchAgents resp).attemptsMade = 5) ∧
    (∀ k, k < 5 → (∀ n, n < k → (resp n).status = 429) →
      (resp k).status ≠ 429 → httpOk ((resp k).status) = false →
      (fetchAgents resp).result = Except.error (FetchErr.upstream ((resp k).status)) ∧
      (fetchAgents resp).delays = powDelays 1000 k ∧
      (fetchAgents resp).attemptsMade = k + 1) ∧
    (∀ k, k < 5 → (∀ n, n < k → (resp n).status = 429) →
      httpOk ((resp k).status) = true →
      (fetchAgents resp).result = Except.ok ((resp k).body) ∧
      (fetchAgents resp).delays = powDelays 1000 k ∧
      (fetchAgents resp).attemptsMade = k + 1) := by
  refine ⟨?_, ?_, ?_, ?_⟩
  · have h := fetchAgentsGo_attempts_le resp 5 0 1000 []
    simpa [fetchAgents] using h
  · intro h
    have hall := fetchAgentsGo_all429 resp 5 0 1000 []
      (by intro n hn; rw [Nat.zero_add]; exact h n hn)
    unfold fetchAgents
    rw [hall]
    exact ⟨rfl, by rfl, rfl⟩
  · intro k hk h429 hne hok
    have hstop : ((resp (0 + k)).status == 429) = false := by
      rw [Nat.zero_add]
      exact beq_eq_false_iff_ne.mpr hne
    have h := fetchAgentsGo_stop resp 5 k 0 1000 [] hk
      (by intro n hn; rw [Nat.zero_add]; exact h429 n hn) hstop
    rw [Nat.zero_add] at h
    unfold fetchAgents
    rw [h, if_neg (by simp [hok])]
    exact ⟨rfl, by simp, rfl⟩
  · intro k hk h429 hok
    have hne : (resp k).status ≠ 429 := by
      intro he
      rw [he] at hok
      exact absurd hok (by decide)
    have hstop : ((resp (0 + k)).status == 429) = false := by
      rw [Nat.zero_add]
      exact beq_eq_false_iff_ne.mpr hne
    have h := fetchAgentsGo_stop resp 5 k 0 1000 [] hk
      (by intro n hn; rw [Nat.zero_add]; exact h429 n hn) hstop
    rw [Nat.zero_add] at h
    unfold fetchAgents
    rw [h, if_pos (by simp [hok])]
    exact ⟨rfl, by simp, rfl⟩

/-- C2 witness: the concrete always-429 source. -/
theorem fetchAgents_backoff_witness :
    (fetchAgents (fun _ => { status := 429 })).result = Except.error FetchErr.rateLimited ∧
    (fetchAgents (fun _ => { status := 429 })).delays = [1000, 2000, 4000, 8000, 16000] ∧
    (fetchAgents (fun _ => { status := 429 })).attemptsMade = 5 := by
  have h := (fetchAgents_backoff (fun _ => { status := 429 })).2.1 (by intro n hn; rfl)
  exact h

/-- C4: when a Graph API key is configured, `smartSync` runs the Graph
sync first and, on its success, contacts no other source; on a Graph
exception (or with no key configured) it runs the REST sync, whose
outcome it returns; the chain scanner is never contacted by
`smartSync`. -/
theorem smartSync_cascade (key : String) (g a : Except String Nat) :
    (∀ n, key ≠ "" → g = Except.ok n →
      smartSync key g a = (Except.ok n, [SyncSource.graph])) ∧
    (∀ e, key ≠ "" → g = Except.error e →
      smartSync key g a = (a, [SyncSource.graph, SyncSource.rest])) ∧
    (key = "" → smartSync key g a = (a, [SyncSource.rest])) ∧
    SyncSource.chain ∉ (smartSync key g a).2 := by
  refine ⟨?_, ?_, ?_, ?_⟩
  · intro n hkey hg
    unfold smartSync
    rw [if_neg (by simp [hkey]), hg]
  · intro e hkey hg
    unfold smartSync
    rw [if_neg (by simp [hkey]), hg]
  · intro hkey
    unfold smartSync
    rw [if_pos (by simp [hkey])]
  · unfold smartSync
    by_cases hkey : (key == "") = true
    · rw [if_pos hkey]; simp
    · rw [if_neg hkey]
      cases g <;> simp

/-- C4 witness: a configured key with a succeeding Graph sync. -/
theorem smartSync_cascade_witness :
    smartSync "someKey" (Except.ok 3) (Except.ok 7) = (Except.ok 3, [SyncSource.graph]) :=
  (smartSync_cascade "someKey" (Except.ok 3) (Except.ok 7)).1 3 (by decide) rfl

/-- C7: `refreshCache` skips the sync and answers
`{synced: false, count: current}` exactly when a numeric sync timestamp
is recorded for the network and `now - ts <= ttl`; otherwise it
performs the synchronous sync and answers `{synced: true, count}` with
the sync result.  The hypothesis restricts recorded timestamps to
numeric strings, which is what every sync path writes
(`Date.now().toString()`). -/
theorem refreshCache_staleness (st : IndexerState) (network : String) (ttl now sc : Nat)
    (hnum : ∀ v, getSyncState st ("lastSyncTime_" ++ network) = some v → (parseTimestamp v).isSome) :
    ((refreshCache st network ttl now sc).syncPerformed = false ↔
      (∃ v ts, getSyncState st ("lastSyncTime_" ++ network) = some v ∧
        parseTimestamp v = some ts ∧ now - ts ≤ ttl)) ∧
    ((refreshCache st network ttl now sc).syncPerformed = false →
      refreshCache st network ttl now sc =
        ⟨false, getAgentCount st.agents, false⟩) ∧
    ((refreshCache st network ttl now sc).syncPerformed = true →
      refreshCache st network ttl now sc = ⟨true, sc, true⟩) := by
  cases hg : getSyncState st ("lastSyncTime_" ++ network) with
  | none =>
    have hb : isCacheStale st network ttl now = true := by
      unfold isCacheStale
      rw [hg]
    have hr : refreshCache st network ttl now sc = ⟨true, sc, true⟩ := by
      unfold refreshCache
      rw [hb]
      simp
    refine ⟨?_, ?_, ?_⟩
    · rw [hr]
      constructor
      · intro h
        simp at h
      · rintro ⟨v2, ts2, hget2, _, _⟩
        cases hget2
    · intro h
      rw [hr] at h
      simp at h
    · intro _
      exact hr
  | some v =>
    cases hv : parseTimestamp v with
    | none =>
      have hs := hnum v hg
      rw [hv] at hs
      exact absurd hs (by decide)
    | some ts =>
      by_cases hstale : now - ts > ttl
      · have hb : isCacheStale st network ttl now = true := by
          unfold isCacheStale
          rw [hg]
          show (match parseTimestamp v with
            | none => false
            | some ts => decide (now - ts > ttl)) = true
          rw [hv]
          simpa using hstale
        have hr : refreshCache st network ttl now sc = ⟨true, sc, true⟩ := by
          unfold refreshCache
          rw [hb]
          simp
        refine ⟨?_, ?_, ?_⟩
        · rw [hr]
          constructor
          · intro h
            simp at h
          · rintro ⟨v2, ts2, hget2, htn2, hle2⟩
            cases hget2
            rw [hv] at htn2
            cases htn2
            omega
        · intro h
          rw [hr] at h
          simp at h
        · intro _
          exact hr
      · have hb : isCacheStale st network ttl now = false := by
          unfold isCacheStale
          rw [hg]
          show (match parseTimestamp v with
            | none => false
            | some ts => decide (now - ts > ttl)) = false
          rw [hv]
          simpa using hstale
        have hr : refreshCache st network ttl now sc =
            ⟨false, getAgentCount st.agents, false⟩ := by
          unfold refreshCache
          rw [hb]
          simp
        refine ⟨?_, ?_, ?_⟩
        · rw [hr]
          constructor
          · intro _
            exact ⟨v, ts, rfl, hv, by omega⟩
          · intro _
            rfl
        · intro _
          exact hr
        · intro h
          rw [hr] at h
          simp at h

/-- C7 witness: a fresh cache (timestamp 100 recorded, `now` 120 within
a TTL of 50) returns the current count without syncing. -/
theorem refreshCache_staleness_witness :
    refreshCache { agents := [], sync := [("lastSyncTime_mainnet", "100")] }
        "mainnet" 50 120 9 = ⟨false, 0, false⟩ := by
  have h := refreshCache_staleness
    { agents := [], sync := [("lastSyncTime_mainnet", "100")] } "mainnet" 50 120 9
    (by
      intro v hv
      have h2 : v = "100" := by
        have h3 : getSyncState { agents := [], sync := [("lastSyncTime_mainnet", "100")] }
            ("lastSyncTime_" ++ "mainnet") = some "100" := by rfl
        rw [h3] at hv
        cases hv
        rfl
      rw [h2]
      decide)
  exact h.2.1 (h.1.mpr ⟨"100", 100, by rfl, by decide, by decide⟩)

/-- C8: `lookupAgentById` never modifies the store on any path; it
answers with the cached record when the Record Store has one; on a
cache miss with a configured key it answers with the normalization of
the Graph response to the single-entity query whose identifier is the
composite of the chain identifier and the agent identifier. -/
theorem lookupAgentById_frame (st : IndexerState) (key : String)
    (q : String → Option GraphAgent) (agentId : Nat) (network : SyncNetwork) :
    (lookupAgentById st key q agentId network).2 = st ∧
    (∀ r, getAgent st.agents agentId = some r →
      (lookupAgentById st key q agentId network).1 = some (Sum.inl r)) ∧
    (getAgent st.agents agentId = none → key ≠ "" →
      (lookupAgentById st key q agentId network).1 =
        (q (chainIdOf GraphNetwork.base ++ ":" ++ toString agentId)).map
          (fun a => Sum.inr (lookupAgentNormalize a))) := by
  unfold lookupAgentById
  cases hg : getAgent st.agents agentId with
  | some cached =>
    refine ⟨rfl, ?_, ?_⟩
    · intro r hr
      cases hr
      rfl
    · intro h
      exact absurd h (by simp)
  | none =>
    by_cases hkey : (key == "") = true
    · refine ⟨?_, ?_, ?_⟩
      · simp [hkey]
      · intro r hr
        exact absurd hr (by simp)
      · intro _ hne
        exact absurd (by simpa using hkey) hne
    · refine ⟨?_, ?_, ?_⟩
      · simp [hkey]
      · intro r hr
        exact absurd hr (by simp)
      · intro _ _
        simp only [Bool.not_eq_true] at hkey
        simp [hkey, lookupAgent, Option.map_map]
        rfl

/-- C8 witness: a miss against an empty store with a configured key and
an empty Graph answer. -/
theorem lookupAgentById_frame_witness :
    lookupAgentById {} "someKey" (fun _ => none) 7 SyncNetwork.mainnet =
      (none, ({} : IndexerState)) := by
  have h := lookupAgentById_frame {} "someKey" (fun _ => none) 7 SyncNetwork.mainnet
  have h1 := h.2.2 rfl (by decide)
  have h2 := h.1
  rw [Prod.ext_iff]
  exact ⟨h1, h2⟩

/-- Helper: the Set-based deduplication keeps its accumulator free of
duplicates. -/
theorem dedupAux_nodup : ∀ (l acc : List String), acc.Nodup → (dedupAux l acc).Nodup := by
  intro l
  induction l with
  | nil =>
    intro acc h
    simpa [dedupAux] using h
  | cons x xs ih =>
    intro acc h
    unfold dedupAux
    by_cases hx : x ∈ acc
    · rw [if_pos hx]
      exact ih acc h
    · rw [if_neg hx]
      exact ih _ (List.nodup_cons.mpr ⟨hx, h⟩)

/-- Helper: the Set-based deduplication preserves membership. -/
theorem mem_dedupAux : ∀ (l acc : List String) (x : String),
    x ∈ dedupAux l acc ↔ x ∈ l ∨ x ∈ acc := by
  intro l
  induction l with
  | nil =>
    intro acc x
    simp [dedupAux]
  | cons a as ih =>
    intro acc x
    unfold dedupAux
    by_cases ha : a ∈ acc
    · rw [if_pos ha, ih]
      constructor
      · rintro (h | h)
        · exact Or.inl (List.mem_cons_of_mem a h)
        · exact Or.inr h
      · rintro (h | h)
        · rcases List.mem_cons.mp h with h1 | h1
          · exact Or.inr (by rw [h1]; exact ha)
          · exact Or.inl h1
        · exact Or.inr h
    · rw [if_neg ha, ih]
      constructor
      · rintro (h | h)
        · exact Or.inl (List.mem_cons_of_mem a h)
        · rcases List.mem_cons.mp h with h1 | h1
          · exact Or.inl (by rw [h1]; exact List.mem_cons_self a as)
          · exact Or.inr h1
      · rintro (h | h)
        · rcases List.mem_cons.mp h with h1 | h1
          · exact Or.inr (by rw [h1]; exact List.mem_cons_self a acc)
          · exact Or.inl h1
        · exact Or.inr (List.mem_cons_of_mem a h)

/-- Helper: `[...new Set(caps)]` never contains an element twice. -/
theorem jsSetDedup_nodup (l : List String) : (jsSetDedup l).Nodup :=
  dedupAux_nodup l [] List.nodup_nil

/-- Helper: `[...new Set(caps)]` keeps exactly the original elements. -/
theorem mem_jsSetDedup (l : List String) (x : String) : x ∈ jsSetDedup l ↔ x ∈ l := by
  have h := mem_dedupAux l [] x
  simpa [jsSetDedup] using h

/-- C6 (amended): both capability extractors return deduplicated tag
lists (no element twice) and never fail on absent fields, and for the
scenario payload (x402 support, an MCP endpoint, two declared tools)
the Graph extractor yields the tags x402, mcp and the two namespaced
tool tags; however, only the trust-mechanism tags are lowercased — the
tool-derived tags keep the case of the source (see the
counterexample). -/
theorem extractCapabilities_spec (ga : GraphAgent) (reg : GraphRegistrationFile)
    (aa : ApiAgent) (t1 t2 : String) :
    (extractCapabilitiesGraph ga reg).Nodup ∧
    (extractCapabilitiesApi aa).Nodup ∧
    "x402" ∈ extractCapabilitiesGraph ga
      { x402Support := true, mcpEndpoint := some "https://mcp.example.com",
        mcpTools := some [t1, t2] } ∧
    "mcp" ∈ extractCapabilitiesGraph ga
      { x402Support := true, mcpEndpoint := some "https://mcp.example.com",
        mcpTools := some [t1, t2] } ∧
    ("mcp:" ++ t1) ∈ extractCapabilitiesGraph ga
      { x402Support := true, mcpEndpoint := some "https://mcp.example.com",
        mcpTools := some [t1, t2] } ∧
    ("mcp:" ++ t2) ∈ extractCapabilitiesGraph ga
      { x402Support := true, mcpEndpoint := some "https://mcp.example.com",
        mcpTools := some [t1, t2] } := by
  have hcaps : extractCapabilitiesGraph ga
      { x402Support := true, mcpEndpoint := some "https://mcp.example.com",
        mcpTools := some [t1, t2] } =
      jsSetDedup ["x402", "mcp", "mcp:" ++ t1, "mcp:" ++ t2] := rfl
  refine ⟨jsSetDedup_nodup _, jsSetDedup_nodup _, ?_, ?_, ?_, ?_⟩ <;>
    rw [hcaps, mem_jsSetDedup] <;> simp

/-- C6 counterexample: a declared tool name with an uppercase letter
produces a capability tag that is not entirely lowercase, refuting the
claim that every returned tag is lowercase. -/
theorem extractCapabilities_case_counterexample :
    "mcp:Search" ∈ extractCapabilitiesGraph {}
      { x402Support := true, mcpEndpoint := some "https://mcp.example.com",
        mcpTools := some ["Search"] } ∧
    strLower "mcp:Search" ≠ "mcp:Search" := by decide

/-- Helper: the sub-chunk starts of a full 10,000-block window are the
five fixed 2000-block steps. -/
theorem subStarts_full (w : Nat) :
    subStarts w (w + 9999) = [w, w + 2000, w + 4000, w + 6000, w + 8000] := by
  unfold subStarts
  have h1 : (w + 9999 - w) / 2000 + 1 = 5 := by omega
  rw [h1]
  have h2 : List.range 5 = [0, 1, 2, 3, 4] := rfl
  rw [h2]
  simp

/-- Helper: a failed full window is retried as exactly five 2000-block
sub-attempts (after the one full-window attempt). -/
theorem windowAttempts_fail (cb : Nat) (ok : Nat → Nat → Bool) (w : Nat)
    (hfull : w + 9999 ≤ cb) (hfail : ok w (w + 9999) = false) :
    windowAttempts cb ok w =
      [(w, w + 9999), (w, w + 1999), (w + 2000, w + 3999), (w + 4000, w + 5999),
        (w + 6000, w + 7999), (w + 8000, w + 9999)] := by
  have ht : windowTo cb w = w + 9999 := Nat.min_eq_left hfull
  simp only [windowAttempts, ht, hfail, Bool.false_eq_true, if_false, subStarts_full,
    List.map_cons, List.map_nil, List.cons.injEq, Prod.mk.injEq, and_true, true_and]
  omega

/-- C3 (amended): the chain scanner splits the requested range into
fixed 10,000-block windows; when the log query for a full window fails
it retries that window as exactly five fixed 2000-block sub-attempts
(a single drop to the 2000-block size, not recursive halving and not
two 5000-block attempts), each sub-attempt failing or succeeding
individually; every window of the range is attempted regardless of
failures in earlier windows, so a failed window never aborts the
scan. -/
theorem chainScan_chunking (ls cb : Nat) (ok : Nat → Nat → Bool) (w : Nat)
    (hmem : w ∈ windowStarts ls cb) (hfull : w + 9999 ≤ cb)
    (hfail : ok w (w + 9999) = false) :
    windowAttempts cb ok w =
      [(w, w + 9999), (w, w + 1999), (w + 2000, w + 3999), (w + 4000, w + 5999),
        (w + 6000, w + 7999), (w + 8000, w + 9999)] ∧
    (∀ pr, pr ∈ windowAttempts cb ok w → pr ∈ chainScanAttempts ls cb ok) ∧
    (∀ w2, w2 ∈ windowStarts ls cb →
      (w2, windowTo cb w2) ∈ chainScanAttempts ls cb ok) := by
  refine ⟨windowAttempts_fail cb ok w hfull hfail, ?_, ?_⟩
  · intro pr hpr
    unfold chainScanAttempts
    rw [List.mem_flatten]
    exact ⟨windowAttempts cb ok w, List.mem_map_of_mem _ hmem, hpr⟩
  · intro w2 hw2
    unfold chainScanAttempts
    rw [List.mem_flatten]
    refine ⟨windowAttempts cb ok w2, List.mem_map_of_mem _ hw2, ?_⟩
    rw [show windowAttempts cb ok w2 =
        (if ok w2 (windowTo cb w2) then [(w2, windowTo cb w2)]
          else (w2, windowTo cb w2) :: (subStarts w2 (windowTo cb w2)).map
            (fun f2 => (f2, min (f2 + 1999) (windowTo cb w2)))) from rfl]
    by_cases h : ok w2 (windowTo cb w2) = true
    · rw [if_pos h]
      exact List.mem_singleton.mpr rfl
    · rw [if_neg h]
      exact List.mem_cons_self _ _

/-- C3 witness: a range of two windows whose first window fails. -/
theorem chainScan_chunking_witness :
    windowAttempts 19999 (fun f _ => decide (10000 ≤ f)) 0 =
      [(0, 9999), (0, 1999), (2000, 3999), (4000, 5999), (6000, 7999), (8000, 9999)] := by
  have h := chainScan_chunking 0 19999 (fun f _ => decide (10000 ≤ f)) 0
    (by decide) (by decide) (by decide)
  simpa using h.1

/-- C3 counterexample: on a failed 10,000-block window the scanner
makes five 2000-block sub-attempts, not exactly two halved (roughly
5000-block) sub-attempts as claimed: the full attempt list at a
concrete failing range is computed, its sub-attempt count is 5 (not 2)
and every sub-attempt spans 2000 blocks. -/
theorem chainScan_halving_counterexample :
    chainScanAttempts 0 9999 (fun _ _ => false) =
      [(0, 9999), (0, 1999), (2000, 3999), (4000, 5999), (6000, 7999), (8000, 9999)] ∧
    (chainScanAttempts 0 9999 (fun _ _ => false)).length - 1 ≠ 2 ∧
    (∀ pr, pr ∈ (chainScanAttempts 0 9999 (fun _ _ => false)).tail →
      pr.2 + 1 - pr.1 = 2000) := by decide

end Anet
